import Mathlib

/-!
Verification of `scripts/migrate/patch_workflow_use_external_js.py`.

The script is embedded shallowly: JSON values become the inductive `Json`
(objects are insertion-ordered association lists, mirroring Python dicts),
the per-node patching loop becomes `processNode` / `processNodes` /
`processWorkflow` / `runPatch` in an `Except String` monad whose `error`
constructor stands for an uncaught Python exception, the directory scan
becomes `buildMapping` over an abstract directory listing, and the
command-line driver becomes `runMain` over an abstract filesystem `World`.
-/

namespace ExtJsPatch

/-- JSON values as produced by Python's `json.load`.  Objects are
insertion-ordered association lists, matching CPython dict semantics;
numbers are modelled as integers (no claim depends on float values, every
number is merely carried through unchanged). -/
inductive Json where
  | null : Json
  | bool : Bool → Json
  | num : Int → Json
  | str : String → Json
  | arr : List Json → Json
  | obj : List (String × Json) → Json

/-- The two counters `total_patched` and `total_skipped` of the script. -/
structure PatchState where
  patched : Nat
  skipped : Nat

/-- Python `d.get(k)` on an insertion-ordered dict: the value at the first
(and in a real dict, only) entry whose key equals `k`. -/
def dictGet {α : Type} (k : String) : List (String × α) → Option α
  | [] => none
  | (k', v) :: rest => if k = k' then some v else dictGet k rest

/-- Python `d[k] = v` on an insertion-ordered dict: replace the value in
place if the key is present, otherwise append the new entry at the end. -/
def dictSet {α : Type} : List (String × α) → String → α → List (String × α)
  | [], k, v => [(k, v)]
  | (k', v') :: rest, k, v =>
    if k = k' then (k, v) :: rest else (k', v') :: dictSet rest k v

/-- Python truthiness of a JSON value (`if not nid:`): `None`, `False`,
zero, and empty strings/lists/dicts are falsy. -/
def pyTruthy : Json → Bool
  | Json.null => false
  | Json.bool b => b
  | Json.num n => !(n == 0)
  | Json.str s => !(s == "")
  | Json.arr xs => !xs.isEmpty
  | Json.obj fs => !fs.isEmpty

/-- The hard-coded node type the script patches. -/
def codeNodeType : String := "n8n-nodes-base.code"

/-- The test `n.get("type") != "n8n-nodes-base.code"` (negated): true
exactly when the looked-up value is that very string. -/
def isCodeType : Option Json → Bool
  | some (Json.str t) => t == codeNodeType
  | _ => false

/-- Python `n.get("type")` view of a node: true for dict nodes whose
`type` value is the code-node type string. -/
def nodeIsCode : Json → Bool
  | Json.obj fs => isCodeType (dictGet "type" fs)
  | _ => false

/-- The generated wrapper string, exactly as built by the f-string at
lines 54-58 of the script (braces written with their escape codes). -/
def wrapper (slug fn : String) : String :=
  "try\x7bconst fn=require('/data/js/workflows/" ++ slug ++ "/" ++ fn ++
    "');return await fn(\x7b$input,$json,$items,$node,$env,helpers\x7d);\x7d" ++
    "catch(e)\x7be.message=`[extjs:" ++ slug ++ "/" ++ fn ++ "] $\x7be.message\x7d`;throw e;\x7d"

/-- `total_skipped += 1`. -/
def skipOne (st : PatchState) : PatchState :=
  { patched := st.patched, skipped := st.skipped + 1 }

/-- `total_patched += 1`. -/
def bumpPatched (st : PatchState) : PatchState :=
  { patched := st.patched + 1, skipped := st.skipped }

/-- Lines 54-60: build the wrapper and run
`n.setdefault("parameters", \x7b\x7d)["jsCode"] = wrapper`.  If `parameters`
is present but not a dict, the item assignment raises `TypeError`. -/
def patchNode (slug fn : String) (fs : List (String × Json)) (st : PatchState) :
    Except String (Json × PatchState) :=
  match dictGet "parameters" fs with
  | none =>
    Except.ok (Json.obj (dictSet fs "parameters"
      (Json.obj [("jsCode", Json.str (wrapper slug fn))])), bumpPatched st)
  | some (Json.obj ps) =>
    Except.ok (Json.obj (dictSet fs "parameters"
      (Json.obj (dictSet ps "jsCode" (Json.str (wrapper slug fn))))), bumpPatched st)
  | some _ => Except.error "TypeError: item assignment on non-dict parameters"

/-- Lines 42-60, the body of the per-node loop.  Non-dict nodes raise
`AttributeError` at `n.get`; a truthy non-string `id` that is a list or a
dict raises `TypeError` inside `mapping.get` (unhashable), while other
truthy non-strings simply miss the string-keyed mapping and are skipped. -/
def processNode (m : List (String × String)) (slug : String) (st : PatchState) (n : Json) :
    Except String (Json × PatchState) :=
  match n with
  | Json.obj fs =>
    if isCodeType (dictGet "type" fs) then
      match dictGet "id" fs with
      | none => Except.ok (Json.obj fs, skipOne st)
      | some nid =>
        if pyTruthy nid then
          match nid with
          | Json.str s =>
            match dictGet s m with
            | none => Except.ok (Json.obj fs, skipOne st)
            | some fn =>
              if fn = "" then Except.ok (Json.obj fs, skipOne st)
              else patchNode slug fn fs st
          | Json.arr _ => Except.error "TypeError: unhashable id (list)"
          | Json.obj _ => Except.error "TypeError: unhashable id (dict)"
          | _ => Except.ok (Json.obj fs, skipOne st)
        else Except.ok (Json.obj fs, skipOne st)
    else Except.ok (Json.obj fs, st)
  | _ => Except.error "AttributeError: get on non-dict node"

/-- The loop `for n in nodes:` over a node list, threading the counters. -/
def processNodes (m : List (String × String)) (slug : String) :
    PatchState → List Json → Except String (List Json × PatchState)
  | st, [] => Except.ok ([], st)
  | st, n :: rest =>
    match processNode m slug st n with
    | Except.error e => Except.error e
    | Except.ok (n', st') =>
      match processNodes m slug st' rest with
      | Except.error e => Except.error e
      | Except.ok (rest', st'') => Except.ok (n' :: rest', st'')

/-- Lines 40-42: `nodes = wf.get("nodes", [])` then the node loop.  A
missing `nodes` key means an empty loop.  Iterating a non-list `nodes`
value mirrors Python: an empty string or empty dict iterates zero times
(leaving the workflow untouched), a non-empty string or dict yields
elements without `.get` (AttributeError), anything else is not iterable. -/
def processWorkflow (m : List (String × String)) (slug : String) (st : PatchState) (wf : Json) :
    Except String (Json × PatchState) :=
  match wf with
  | Json.obj fs =>
    match dictGet "nodes" fs with
    | none => Except.ok (Json.obj fs, st)
    | some (Json.arr ns) =>
      match processNodes m slug st ns with
      | Except.error e => Except.error e
      | Except.ok (ns', st') =>
        Except.ok (Json.obj (dictSet fs "nodes" (Json.arr ns')), st')
    | some (Json.str s) =>
      if s = "" then Except.ok (Json.obj fs, st)
      else Except.error "AttributeError: get on str node"
    | some (Json.obj gs) =>
      if gs.isEmpty then Except.ok (Json.obj fs, st)
      else Except.error "AttributeError: get on str node (dict key)"
    | some _ => Except.error "TypeError: nodes object is not iterable"
  | _ => Except.error "AttributeError: get on non-dict workflow"

/-- The loop `for wf in workflows:` over the normalized workflow list. -/
def processWorkflows (m : List (String × String)) (slug : String) :
    PatchState → List Json → Except String (List Json × PatchState)
  | st, [] => Except.ok ([], st)
  | st, wf :: rest =>
    match processWorkflow m slug st wf with
    | Except.error e => Except.error e
    | Except.ok (wf', st') =>
      match processWorkflows m slug st' rest with
      | Except.error e => Except.error e
      | Except.ok (rest', st'') => Except.ok (wf' :: rest', st'')

/-- Lines 35-60: `workflows = data if isinstance(data, list) else [data]`,
the patching loops starting from zeroed counters, and the serialized root
(the original `data` object, mutated in place). -/
def runPatch (m : List (String × String)) (slug : String) (data : Json) :
    Except String (Json × PatchState) :=
  match data with
  | Json.arr ws =>
    match processWorkflows m slug { patched := 0, skipped := 0 } ws with
    | Except.error e => Except.error e
    | Except.ok (ws', st) => Except.ok (Json.arr ws', st)
  | _ =>
    match processWorkflow m slug { patched := 0, skipped := 0 } data with
    | Except.error e => Except.error e
    | Except.ok (wf', st) => Except.ok (wf', st)

/-- Character class `[0-9a-fA-F-]` of the mapping regex. -/
def uuidTokChar (c : Char) : Bool :=
  ('0' ≤ c && c ≤ '9') || ('a' ≤ c && c ≤ 'f') || ('A' ≤ c && c ≤ 'F') || c == '-'

/-- The regex search `__([0-9a-fA-F-]{36})\.js$` of line 22.  Because the
pattern is anchored at the end, a basename matches exactly when its final
41 characters are two underscores, 36 characters of the hex-or-hyphen
class, and the literal `.js`; the captured group is returned. -/
def extractNodeId (base : String) : Option String :=
  let cs := base.toList
  let n := cs.length
  if n < 41 then none
  else
    match cs.drop (n - 41) with
    | '_' :: '_' :: rest =>
      let tok := rest.take 36
      if tok.all uuidTokChar && rest.drop 36 == ['.', 'j', 's'] then
        some (String.mk tok)
      else none
    | _ => none

/-- The filter applied by `glob.glob(os.path.join(js_dir, "*.js"))` to an
immediate-child entry name: the name must end in `.js`, and — a documented
property of Python's `glob`/`fnmatch` — names beginning with a dot are
never matched by a `*` wildcard, so hidden files are excluded. -/
def globMatchJs (base : String) : Bool :=
  match base.toList with
  | [] => false
  | c :: rest =>
    let cs := c :: rest
    !(c == '.') && (cs.drop (cs.length - 3) == ['.', 'j', 's'])

/-- One iteration of the loop at lines 20-26: a listing entry passes the
glob filter, then the regex; on a match, `mapping[node_id] = base`. -/
def mapStep (m : List (String × String)) (base : String) : List (String × String) :=
  if globMatchJs base then
    match extractNodeId base with
    | some nid => dictSet m nid base
    | none => m
  else m

/-- Lines 19-26: fold the directory listing (in listing order) into the
`node_id -> basename` dict; `mapping[node_id] = base` is a Python dict
store, so a duplicate id keeps its position but takes the latest value. -/
def buildMapping (listing : List String) : List (String × String) :=
  listing.foldl mapStep []

/-- Whether a listing entry contributes the binding for a given node id:
it survives the glob filter and its regex capture is exactly that id. -/
def matchesFor (nid : String) (base : String) : Bool :=
  globMatchJs base && (extractNodeId base == some nid)

/-- The usage string printed on wrong arity (line 9). -/
def usageMsg : String :=
  "Usage: patch_workflow_use_external_js.py <workflow_json> <js_dir> <workflow_slug>"

/-- Abstract filesystem and command-line environment of one invocation:
which paths exist, which are directories, the immediate-child entry names
of a directory, and the result of opening-and-JSON-parsing a file
(`none` models a `json.JSONDecodeError`). -/
structure World where
  pathExists : String → Bool
  isDir : String → Bool
  jsListing : String → List String
  fileJson : String → Option Json

/-- Observable outcome of one process run.  `died msg` is the `die` helper:
exactly one line `msg` on stderr, then `sys.exit(1)`.  `raisedJSONDecodeError`
and `raisedOther` model uncaught exceptions: the interpreter prints a
multi-line traceback to stderr and exits with status 1.  `finished` models
the success path: the document is serialized (with `indent=2`) to the given
output path and the two summary lines go to stdout. -/
inductive Outcome where
  | died : String → Outcome
  | raisedJSONDecodeError : Outcome
  | raisedOther : String → Outcome
  | finished : String → Json → Nat → Nat → Outcome

/-- Process exit status of each outcome: `die` calls `sys.exit(1)`, an
uncaught exception makes CPython exit with status 1, success exits 0. -/
def Outcome.exitCode : Outcome → Nat
  | Outcome.died _ => 1
  | Outcome.raisedJSONDecodeError => 1
  | Outcome.raisedOther _ => 1
  | Outcome.finished _ _ _ _ => 0

/-- Whether the stderr output of the outcome is the single-line diagnostic
of `die`; the traceback of an uncaught exception spans several lines and a
successful run writes nothing to stderr. -/
def Outcome.oneLineDie : Outcome → Bool
  | Outcome.died _ => true
  | _ => false

/-- The whole script (lines 8-68) as a function of the argument vector
(including `argv[0]`) and the filesystem world: arity check, path checks,
mapping build and emptiness check, JSON load, patching, and the write. -/
def runMain (argv : List String) (w : World) : Outcome :=
  match argv with
  | [_, wfPath, jsDir, slug] =>
    if !(w.pathExists wfPath) then
      Outcome.died ("Missing workflow json: " ++ wfPath)
    else if !(w.isDir jsDir) then
      Outcome.died ("Missing js dir: " ++ jsDir)
    else
      let mapping := buildMapping (w.jsListing jsDir)
      if mapping.isEmpty then
        Outcome.died ("No node-id mapped js files found in " ++ jsDir)
      else
        match w.fileJson wfPath with
        | none => Outcome.raisedJSONDecodeError
        | some data =>
          match runPatch mapping slug data with
          | Except.error e => Outcome.raisedOther e
          | Except.ok (doc, st) =>
            Outcome.finished ("tmp/" ++ slug ++ ".raw.externalized.json")
              doc st.patched st.skipped
  | _ => Outcome.died usageMsg

/-- Count of code-type nodes in one workflow object (the nodes the claim
about the counters ranges over). -/
def countWf : Json → Nat
  | Json.obj fs =>
    match dictGet "nodes" fs with
    | some (Json.arr ns) => ns.countP nodeIsCode
    | _ => 0
  | _ => 0

/-- Count of code-type nodes across all workflows of a document, under the
same single-object-vs-array normalization as the script. -/
def countCodeNodes : Json → Nat
  | Json.arr ws => (ws.map countWf).sum
  | d => countWf d

/-- Lookup inside the `parameters` sub-dict of a node's field list;
`none` when `parameters` is absent or not a dict. -/
def paramLookup (fs : List (String × Json)) (k : String) : Option Json :=
  match dictGet "parameters" fs with
  | some (Json.obj ps) => dictGet k ps
  | _ => none

/-- Frame relation between an input node and its output: both are dicts;
the key list is unchanged (or gains a trailing `parameters` when it was
absent); every field other than `parameters` is unchanged; and inside
`parameters` every field other than `jsCode` is unchanged. -/
def NodeFrame (n n' : Json) : Prop :=
  ∃ fs fs', n = Json.obj fs ∧ n' = Json.obj fs' ∧
    (fs'.map Prod.fst = fs.map Prod.fst ∨
      (dictGet "parameters" fs = none ∧
        fs'.map Prod.fst = fs.map Prod.fst ++ ["parameters"])) ∧
    (∀ k, k ≠ "parameters" → dictGet k fs' = dictGet k fs) ∧
    (∀ k, k ≠ "jsCode" → paramLookup fs' k = paramLookup fs k)

/-- Per-node guarantee of the patcher: the frame relation always holds,
and a node that is not of the code type is returned entirely unchanged. -/
def NodeRel (n n' : Json) : Prop :=
  NodeFrame n n' ∧ (nodeIsCode n = false → n' = n)

/-- Frame relation between an input workflow and its output: both are
dicts with the same key list, every field other than `nodes` is unchanged,
and `nodes` is either an equal-length list related pointwise by `NodeRel`
or (when absent or not a list) unchanged. -/
def WfFrame (wf wf' : Json) : Prop :=
  ∃ fs fs', wf = Json.obj fs ∧ wf' = Json.obj fs' ∧
    fs'.map Prod.fst = fs.map Prod.fst ∧
    (∀ k, k ≠ "nodes" → dictGet k fs' = dictGet k fs) ∧
    ((∃ ns ns', dictGet "nodes" fs = some (Json.arr ns) ∧
        dictGet "nodes" fs' = some (Json.arr ns') ∧
        List.Forall₂ NodeRel ns ns') ∨
      dictGet "nodes" fs' = dictGet "nodes" fs)

/-- Frame relation between input and output documents: an array root maps
to an array root of the same length with workflows related pointwise, and
a non-array root maps to a single related workflow. -/
def DocFrame (d d' : Json) : Prop :=
  (∃ ws ws', d = Json.arr ws ∧ d' = Json.arr ws' ∧ List.Forall₂ WfFrame ws ws') ∨
  ((∀ xs, d ≠ Json.arr xs) ∧ WfFrame d d')

/-- Shape of a node after the wrapper assignment of lines 54-60: either
`parameters` was absent, so a fresh one-field dict is appended, or it was
a dict and its `jsCode` entry is overwritten in place. -/
def PatchedShape (slug fn : String) (fs : List (String × Json)) (n' : Json) : Prop :=
  (dictGet "parameters" fs = none ∧
    n' = Json.obj (dictSet fs "parameters"
      (Json.obj [("jsCode", Json.str (wrapper slug fn))]))) ∨
  (∃ ps, dictGet "parameters" fs = some (Json.obj ps) ∧
    n' = Json.obj (dictSet fs "parameters"
      (Json.obj (dictSet ps "jsCode" (Json.str (wrapper slug fn))))))

/-- A 36-character all-zero UUID-shaped token. -/
def uuidZeros : String := "000000000000000000000000000000000000"

/-- A sample externalized-JS basename following the filename convention. -/
def sampleFile : String := "a__000000000000000000000000000000000000.js"

/-- A sample code-type node carrying an inline script and a second
parameter field. -/
def sampleNode : Json :=
  Json.obj [("id", Json.str uuidZeros), ("type", Json.str "n8n-nodes-base.code"),
    ("parameters", Json.obj [("jsCode", Json.str "old"), ("mode", Json.str "x")])]

/-- A sample single-workflow document containing `sampleNode`. -/
def sampleDoc : Json :=
  Json.obj [("name", Json.str "wf"), ("nodes", Json.arr [sampleNode])]

/-- `sampleNode` after patching against `sampleFile` with slug `slug`. -/
def samplePatched : Json :=
  Json.obj [("id", Json.str uuidZeros), ("type", Json.str "n8n-nodes-base.code"),
    ("parameters", Json.obj [("jsCode", Json.str (wrapper "slug" sampleFile)),
      ("mode", Json.str "x")])]

/-- `sampleDoc` after patching. -/
def sampleDocOut : Json :=
  Json.obj [("name", Json.str "wf"), ("nodes", Json.arr [samplePatched])]

/-- A world where no path exists at all. -/
def emptyWorld : World :=
  ⟨fun _ => false, fun _ => false, fun _ => [], fun _ => none⟩

/-- A world where only the workflow JSON file exists (no JS directory). -/
def fileWorld : World :=
  ⟨fun p => p == "wf.json", fun _ => false, fun _ => [], fun _ => none⟩

/-- A world with a valid JS directory but an unparsable workflow file. -/
def noJsonWorld : World :=
  ⟨fun _ => true, fun _ => true, fun _ => [sampleFile], fun _ => none⟩

/-- A world whose JS directory holds no UUID-suffixed file. -/
def emptyDirWorld : World :=
  ⟨fun _ => true, fun _ => true, fun _ => ["readme.txt"], fun _ => some (Json.obj [])⟩

theorem dictGet_dictSet_self {α : Type} (l : List (String × α)) (k : String) (v : α) :
    dictGet k (dictSet l k v) = some v := by
  induction l with
  | nil => simp [dictSet, dictGet]
  | cons p rest ih =>
    obtain ⟨k', v'⟩ := p
    by_cases h : k = k'
    · simp [dictSet, dictGet, h]
    · simp [dictSet, dictGet, h, ih]

theorem dictGet_dictSet_ne {α : Type} (l : List (String × α)) (k k' : String) (v : α)
    (h : k' ≠ k) : dictGet k' (dictSet l k v) = dictGet k' l := by
  induction l with
  | nil => simp [dictSet, dictGet, h]
  | cons p rest ih =>
    obtain ⟨a, b⟩ := p
    by_cases hk : k = a
    · subst hk
      simp [dictSet, dictGet, h]
    · by_cases hk' : k' = a <;> simp [dictSet, dictGet, hk, hk', ih]

theorem keys_dictSet_of_get {α : Type} (l : List (String × α)) (k : String) (v w : α)
    (h : dictGet k l = some w) : (dictSet l k v).map Prod.fst = l.map Prod.fst := by
  induction l with
  | nil => simp [dictGet] at h
  | cons p rest ih =>
    obtain ⟨a, b⟩ := p
    by_cases hk : k = a
    · simp [dictSet, hk]
    · simp [dictGet, hk] at h
      simp [dictSet, hk, ih h]

theorem keys_dictSet_of_none {α : Type} (l : List (String × α)) (k : String) (v : α)
    (h : dictGet k l = none) : (dictSet l k v).map Prod.fst = l.map Prod.fst ++ [k] := by
  induction l with
  | nil => simp [dictSet]
  | cons p rest ih =>
    obtain ⟨a, b⟩ := p
    by_cases hk : k = a
    · simp [dictGet, hk] at h
    · simp [dictGet, hk] at h
      simp [dictSet, hk, ih h]

theorem dictSet_eq_self {α : Type} (l : List (String × α)) (k : String) (v : α)
    (h : dictGet k l = some v) : dictSet l k v = l := by
  induction l with
  | nil => simp [dictGet] at h
  | cons p rest ih =>
    obtain ⟨a, b⟩ := p
    by_cases hk : k = a
    · simp [dictGet, hk] at h
      simp [dictSet, hk, h]
    · simp [dictGet, hk] at h
      simp [dictSet, hk, ih h]

theorem dictGet_mem {α : Type} (l : List (String × α)) (k : String) (v : α)
    (h : dictGet k l = some v) : (k, v) ∈ l := by
  induction l with
  | nil => simp [dictGet] at h
  | cons p rest ih =>
    obtain ⟨a, b⟩ := p
    by_cases hk : k = a
    · simp [dictGet, hk] at h
      simp [hk, h]
    · simp [dictGet, hk] at h
      exact List.mem_cons_of_mem _ (ih h)

theorem mem_dictSet {α : Type} (l : List (String × α)) (k : String) (v : α)
    (x : String × α) (h : x ∈ dictSet l k v) : x = (k, v) ∨ x ∈ l := by
  induction l with
  | nil => simp [dictSet] at h; simp [h]
  | cons p rest ih =>
    obtain ⟨a, b⟩ := p
    by_cases hk : k = a
    · simp [dictSet, hk] at h
      rcases h with h | h
      · subst hk; simp [h]
      · simp [h]
    · simp [dictSet, hk] at h
      rcases h with h | h
      · simp [h]
      · rcases ih h with h' | h'
        · simp [h']
        · simp [h']

theorem processNode_cases {m : List (String × String)} {slug : String} {st : PatchState}
    {n n' : Json} {st' : PatchState}
    (h : processNode m slug st n = Except.ok (n', st')) :
    ∃ fs, n = Json.obj fs ∧
      ((nodeIsCode n = false ∧ n' = n ∧ st' = st) ∨
       (nodeIsCode n = true ∧ n' = n ∧ st' = skipOne st) ∨
       (nodeIsCode n = true ∧ st' = bumpPatched st ∧
         ∃ s fn, dictGet "id" fs = some (Json.str s) ∧ s ≠ "" ∧
           dictGet s m = some fn ∧ fn ≠ "" ∧ PatchedShape slug fn fs n')) := by
  cases n with
  | null => simp [processNode] at h
  | bool b => simp [processNode] at h
  | num i => simp [processNode] at h
  | str s => simp [processNode] at h
  | arr xs => simp [processNode] at h
  | obj fs =>
    refine ⟨fs, rfl, ?_⟩
    simp only [processNode] at h
    split at h
    · rename_i hc
      split at h
      · rename_i hid
        simp only [Except.ok.injEq, Prod.mk.injEq] at h
        exact Or.inr (Or.inl ⟨by simp [nodeIsCode, hc], h.1.symm, h.2.symm⟩)
      · rename_i nid hid
        split at h
        · rename_i htr
          split at h
          · rename_i s
            split at h
            · rename_i hmap
              simp only [Except.ok.injEq, Prod.mk.injEq] at h
              exact Or.inr (Or.inl ⟨by simp [nodeIsCode, hc], h.1.symm, h.2.symm⟩)
            · rename_i fn hmap
              split at h
              · simp only [Except.ok.injEq, Prod.mk.injEq] at h
                exact Or.inr (Or.inl ⟨by simp [nodeIsCode, hc], h.1.symm, h.2.symm⟩)
              · rename_i hfn
                refine Or.inr (Or.inr ⟨by simp [nodeIsCode, hc], ?_, s, fn, hid, ?_, hmap, hfn, ?_⟩)
                · simp only [patchNode] at h
                  split at h
                  · simp only [Except.ok.injEq, Prod.mk.injEq] at h
                    exact h.2.symm
                  · simp only [Except.ok.injEq, Prod.mk.injEq] at h
                    exact h.2.symm
                  · exact absurd h (by simp)
                · simp [pyTruthy] at htr
                  exact htr
                · simp only [patchNode] at h
                  split at h
                  · rename_i hpar
                    simp only [Except.ok.injEq, Prod.mk.injEq] at h
                    exact Or.inl ⟨hpar, h.1.symm⟩
                  · rename_i ps hpar
                    simp only [Except.ok.injEq, Prod.mk.injEq] at h
                    exact Or.inr ⟨ps, hpar, h.1.symm⟩
                  · exact absurd h (by simp)
          · simp at h
          · simp at h
          · rename_i hne1 hne2 hne3
            simp only [Except.ok.injEq, Prod.mk.injEq] at h
            exact Or.inr (Or.inl ⟨by simp [nodeIsCode, hc], h.1.symm, h.2.symm⟩)
        · simp only [Except.ok.injEq, Prod.mk.injEq] at h
          exact Or.inr (Or.inl ⟨by simp [nodeIsCode, hc], h.1.symm, h.2.symm⟩)
    · rename_i hc
      simp only [Except.ok.injEq, Prod.mk.injEq] at h
      exact Or.inl ⟨by simp [nodeIsCode, hc], h.1.symm, h.2.symm⟩

theorem isCodeType_iff (o : Option Json) :
    isCodeType o = true ↔ o = some (Json.str codeNodeType) := by
  cases o with
  | none => simp [isCodeType]
  | some v => cases v <;> simp [isCodeType]

theorem nodeFrame_refl (fs : List (String × Json)) :
    NodeFrame (Json.obj fs) (Json.obj fs) :=
  ⟨fs, fs, rfl, rfl, Or.inl rfl, fun _ _ => rfl, fun _ _ => rfl⟩

theorem patchedShape_frame {slug fn : String} {fs : List (String × Json)} {n' : Json}
    (h : PatchedShape slug fn fs n') : NodeFrame (Json.obj fs) n' := by
  rcases h with ⟨hpar, rfl⟩ | ⟨ps, hpar, rfl⟩
  · refine ⟨fs, _, rfl, rfl, Or.inr ⟨hpar, keys_dictSet_of_none _ _ _ hpar⟩, ?_, ?_⟩
    · intro k hk
      exact dictGet_dictSet_ne _ _ _ _ hk
    · intro k hk
      have h1 : dictGet "parameters"
          (dictSet fs "parameters" (Json.obj [("jsCode", Json.str (wrapper slug fn))])) =
          some (Json.obj [("jsCode", Json.str (wrapper slug fn))]) :=
        dictGet_dictSet_self _ _ _
      simp only [paramLookup, h1, hpar]
      simp [dictGet, hk]
  · refine ⟨fs, _, rfl, rfl, Or.inl (keys_dictSet_of_get _ _ _ _ hpar), ?_, ?_⟩
    · intro k hk
      exact dictGet_dictSet_ne _ _ _ _ hk
    · intro k hk
      have h1 : dictGet "parameters"
          (dictSet fs "parameters"
            (Json.obj (dictSet ps "jsCode" (Json.str (wrapper slug fn))))) =
          some (Json.obj (dictSet ps "jsCode" (Json.str (wrapper slug fn)))) :=
        dictGet_dictSet_self _ _ _
      simp only [paramLookup, h1, hpar]
      exact dictGet_dictSet_ne _ _ _ _ hk

theorem processNode_frame {m : List (String × String)} {slug : String} {st : PatchState}
    {n n' : Json} {st' : PatchState}
    (h : processNode m slug st n = Except.ok (n', st')) : NodeRel n n' := by
  obtain ⟨fs, rfl, hcase⟩ := processNode_cases h
  rcases hcase with ⟨hc, rfl, rfl⟩ | ⟨hc, rfl, rfl⟩ | ⟨hc, rfl, s, fn, hid, hs, hmap, hfn, hshape⟩
  · exact ⟨nodeFrame_refl fs, fun _ => rfl⟩
  · exact ⟨nodeFrame_refl fs, fun _ => rfl⟩
  · exact ⟨patchedShape_frame hshape, fun hf => by simp [hc] at hf⟩

theorem processNode_count {m : List (String × String)} {slug : String} {st : PatchState}
    {n n' : Json} {st' : PatchState}
    (h : processNode m slug st n = Except.ok (n', st')) :
    st'.patched + st'.skipped =
      st.patched + st.skipped + (if nodeIsCode n then 1 else 0) := by
  obtain ⟨fs, rfl, hcase⟩ := processNode_cases h
  rcases hcase with ⟨hc, rfl, rfl⟩ | ⟨hc, rfl, rfl⟩ | ⟨hc, rfl, _, _, _, _, _, _, _⟩
  · simp [hc]
  · simp [hc, skipOne]
    omega
  · simp [hc, bumpPatched]
    omega

theorem processNode_compute (m : List (String × String)) (slug : String) (st : PatchState)
    (fs : List (String × Json)) (s fn : String)
    (hty : dictGet "type" fs = some (Json.str codeNodeType))
    (hid : dictGet "id" fs = some (Json.str s)) (hs : s ≠ "")
    (hmap : dictGet s m = some fn) (hfn : fn ≠ "") :
    processNode m slug st (Json.obj fs) = patchNode slug fn fs st := by
  have htr : pyTruthy (Json.str s) = true := by simp [pyTruthy, hs]
  simp only [processNode, hty, hid, hmap, htr]
  simp [isCodeType, hfn]

theorem patchNode_again (slug fn : String) (fs psv : List (String × Json)) (st : PatchState)
    (hjs : dictGet "jsCode" psv = some (Json.str (wrapper slug fn))) :
    patchNode slug fn (dictSet fs "parameters" (Json.obj psv)) st =
      Except.ok (Json.obj (dictSet fs "parameters" (Json.obj psv)), bumpPatched st) := by
  have hp : dictGet "parameters" (dictSet fs "parameters" (Json.obj psv)) =
      some (Json.obj psv) := dictGet_dictSet_self _ _ _
  simp only [patchNode, hp]
  rw [dictSet_eq_self psv "jsCode" _ hjs]
  rw [dictSet_eq_self _ "parameters" _ hp]

theorem processNode_idem {m : List (String × String)} {slug : String} {st : PatchState}
    {n n' : Json} {st' : PatchState}
    (h : processNode m slug st n = Except.ok (n', st')) :
    processNode m slug st n' = Except.ok (n', st') := by
  obtain ⟨fs, rfl, hcase⟩ := processNode_cases h
  rcases hcase with ⟨hc, rfl, rfl⟩ | ⟨hc, rfl, rfl⟩ | ⟨hc, rfl, s, fn, hid, hs, hmap, hfn, hshape⟩
  · exact h
  · exact h
  · have hty : dictGet "type" fs = some (Json.str codeNodeType) :=
      (isCodeType_iff _).1 (by simpa [nodeIsCode] using hc)
    have hne1 : ("type" : String) ≠ "parameters" := by decide
    have hne2 : ("id" : String) ≠ "parameters" := by decide
    rcases hshape with ⟨hpar, rfl⟩ | ⟨ps, hpar, rfl⟩
    · have hjs : dictGet "jsCode" [("jsCode", Json.str (wrapper slug fn))] =
          some (Json.str (wrapper slug fn)) := by simp [dictGet]
      rw [processNode_compute m slug st _ s fn
        (by rw [dictGet_dictSet_ne _ _ _ _ hne1]; exact hty)
        (by rw [dictGet_dictSet_ne _ _ _ _ hne2]; exact hid) hs hmap hfn]
      exact patchNode_again slug fn fs _ st hjs
    · have hjs : dictGet "jsCode" (dictSet ps "jsCode" (Json.str (wrapper slug fn))) =
          some (Json.str (wrapper slug fn)) := dictGet_dictSet_self _ _ _
      rw [processNode_compute m slug st _ s fn
        (by rw [dictGet_dictSet_ne _ _ _ _ hne1]; exact hty)
        (by rw [dictGet_dictSet_ne _ _ _ _ hne2]; exact hid) hs hmap hfn]
      exact patchNode_again slug fn fs _ st hjs

theorem processNodes_frame {m : List (String × String)} {slug : String} :
    ∀ {st : PatchState} {ns ns' : List Json} {st' : PatchState},
      processNodes m slug st ns = Except.ok (ns', st') → List.Forall₂ NodeRel ns ns' := by
  intro st ns
  induction ns generalizing st with
  | nil =>
    intro ns' st' h
    simp only [processNodes, Except.ok.injEq, Prod.mk.injEq] at h
    rw [← h.1]
    exact List.Forall₂.nil
  | cons n rest ih =>
    intro ns' st' h
    simp only [processNodes] at h
    split at h
    · exact absurd h (by simp)
    · rename_i n1 st1 heq
      split at h
      · exact absurd h (by simp)
      · rename_i rest1 st2 heq2
        simp only [Except.ok.injEq, Prod.mk.injEq] at h
        rw [← h.1]
        exact List.Forall₂.cons (processNode_frame heq) (ih heq2)

theorem processNodes_count {m : List (String × String)} {slug : String} :
    ∀ {st : PatchState} {ns ns' : List Json} {st' : PatchState},
      processNodes m slug st ns = Except.ok (ns', st') →
      st'.patched + st'.skipped = st.patched + st.skipped + ns.countP nodeIsCode := by
  intro st ns
  induction ns generalizing st with
  | nil =>
    intro ns' st' h
    simp only [processNodes, Except.ok.injEq, Prod.mk.injEq] at h
    rw [← h.2]
    simp
  | cons n rest ih =>
    intro ns' st' h
    simp only [processNodes] at h
    split at h
    · exact absurd h (by simp)
    · rename_i n1 st1 heq
      split at h
      · exact absurd h (by simp)
      · rename_i rest1 st2 heq2
        simp only [Except.ok.injEq, Prod.mk.injEq] at h
        rw [← h.2]
        have h1 := processNode_count heq
        have h2 := ih heq2
        rw [List.countP_cons]
        by_cases hb : nodeIsCode n = true
        · simp only [hb, if_true] at h1 ⊢
          omega
        · simp only [Bool.not_eq_true] at hb
          simp only [hb] at h1 ⊢
          simp at h1 ⊢
          omega

theorem processNodes_idem {m : List (String × String)} {slug : String} :
    ∀ {st : PatchState} {ns ns' : List Json} {st' : PatchState},
      processNodes m slug st ns = Except.ok (ns', st') →
      processNodes m slug st ns' = Except.ok (ns', st') := by
  intro st ns
  induction ns generalizing st with
  | nil =>
    intro ns' st' h
    simp only [processNodes, Except.ok.injEq, Prod.mk.injEq] at h
    rw [← h.1, ← h.2]
    simp [processNodes]
  | cons n rest ih =>
    intro ns' st' h
    simp only [processNodes] at h
    split at h
    · exact absurd h (by simp)
    · rename_i n1 st1 heq
      split at h
      · exact absurd h (by simp)
      · rename_i rest1 st2 heq2
        simp only [Except.ok.injEq, Prod.mk.injEq] at h
        rw [← h.1, ← h.2]
        simp only [processNodes, processNode_idem heq, ih heq2]

theorem processWorkflow_cases {m : List (String × String)} {slug : String} {st : PatchState}
    {wf wf' : Json} {st' : PatchState}
    (h : processWorkflow m slug st wf = Except.ok (wf', st')) :
    ∃ fs, wf = Json.obj fs ∧
      ((dictGet "nodes" fs = none ∧ wf' = wf ∧ st' = st) ∨
       (∃ ns ns', dictGet "nodes" fs = some (Json.arr ns) ∧
          processNodes m slug st ns = Except.ok (ns', st') ∧
          wf' = Json.obj (dictSet fs "nodes" (Json.arr ns'))) ∨
       (dictGet "nodes" fs = some (Json.str "") ∧ wf' = wf ∧ st' = st) ∨
       (dictGet "nodes" fs = some (Json.obj []) ∧ wf' = wf ∧ st' = st)) := by
  cases wf with
  | null => simp [processWorkflow] at h
  | bool b => simp [processWorkflow] at h
  | num i => simp [processWorkflow] at h
  | str s => simp [processWorkflow] at h
  | arr xs => simp [processWorkflow] at h
  | obj fs =>
    refine ⟨fs, rfl, ?_⟩
    simp only [processWorkflow] at h
    split at h
    · rename_i hn
      simp only [Except.ok.injEq, Prod.mk.injEq] at h
      exact Or.inl ⟨hn, h.1.symm, h.2.symm⟩
    · rename_i ns hn
      split at h
      · exact absurd h (by simp)
      · rename_i ns1 st1 heq
        simp only [Except.ok.injEq, Prod.mk.injEq] at h
        exact Or.inr (Or.inl ⟨ns, ns1, hn, h.2 ▸ heq, h.1.symm⟩)
    · rename_i s hn
      split at h
      · rename_i hs
        simp only [Except.ok.injEq, Prod.mk.injEq] at h
        exact Or.inr (Or.inr (Or.inl ⟨hs ▸ hn, h.1.symm, h.2.symm⟩))
      · exact absurd h (by simp)
    · rename_i gs hn
      split at h
      · rename_i hg
        simp only [Except.ok.injEq, Prod.mk.injEq] at h
        have : gs = [] := by
          cases gs with
          | nil => rfl
          | cons a l => simp [List.isEmpty] at hg
        exact Or.inr (Or.inr (Or.inr ⟨this ▸ hn, h.1.symm, h.2.symm⟩))
      · exact absurd h (by simp)
    · exact absurd h (by simp)

theorem wfFrame_refl (fs : List (String × Json)) :
    WfFrame (Json.obj fs) (Json.obj fs) :=
  ⟨fs, fs, rfl, rfl, rfl, fun _ _ => rfl, Or.inr rfl⟩

theorem processWorkflow_frame {m : List (String × String)} {slug : String} {st : PatchState}
    {wf wf' : Json} {st' : PatchState}
    (h : processWorkflow m slug st wf = Except.ok (wf', st')) : WfFrame wf wf' := by
  obtain ⟨fs, rfl, hcase⟩ := processWorkflow_cases h
  rcases hcase with ⟨hn, rfl, rfl⟩ | ⟨ns, ns', hn, hns, rfl⟩ | ⟨hn, rfl, rfl⟩ | ⟨hn, rfl, rfl⟩
  · exact wfFrame_refl fs
  · refine ⟨fs, _, rfl, rfl, keys_dictSet_of_get _ _ _ _ hn, ?_, ?_⟩
    · intro k hk
      exact dictGet_dictSet_ne _ _ _ _ hk
    · exact Or.inl ⟨ns, ns', hn, dictGet_dictSet_self _ _ _, processNodes_frame hns⟩
  · exact wfFrame_refl fs
  · exact wfFrame_refl fs

theorem processWorkflow_count {m : List (String × String)} {slug : String} {st : PatchState}
    {wf wf' : Json} {st' : PatchState}
    (h : processWorkflow m slug st wf = Except.ok (wf', st')) :
    st'.patched + st'.skipped = st.patched + st.skipped + countWf wf := by
  obtain ⟨fs, rfl, hcase⟩ := processWorkflow_cases h
  rcases hcase with ⟨hn, rfl, rfl⟩ | ⟨ns, ns', hn, hns, rfl⟩ | ⟨hn, rfl, rfl⟩ | ⟨hn, rfl, rfl⟩
  · simp [countWf, hn]
  · have := processNodes_count hns
    simp [countWf, hn, this]
  · simp [countWf, hn]
  · simp [countWf, hn]

theorem processWorkflow_idem {m : List (String × String)} {slug : String} {st : PatchState}
    {wf wf' : Json} {st' : PatchState}
    (h : processWorkflow m slug st wf = Except.ok (wf', st')) :
    processWorkflow m slug st wf' = Except.ok (wf', st') := by
  obtain ⟨fs, rfl, hcase⟩ := processWorkflow_cases h
  rcases hcase with ⟨hn, rfl, rfl⟩ | ⟨ns, ns', hn, hns, rfl⟩ | ⟨hn, rfl, rfl⟩ | ⟨hn, rfl, rfl⟩
  · exact h
  · have hn' : dictGet "nodes" (dictSet fs "nodes" (Json.arr ns')) = some (Json.arr ns') :=
      dictGet_dictSet_self _ _ _
    simp only [processWorkflow, hn', processNodes_idem hns]
    rw [dictSet_eq_self _ "nodes" _ hn']
  · exact h
  · exact h

theorem processWorkflows_frame {m : List (String × String)} {slug : String} :
    ∀ {st : PatchState} {ws ws' : List Json} {st' : PatchState},
      processWorkflows m slug st ws = Except.ok (ws', st') → List.Forall₂ WfFrame ws ws' := by
  intro st ws
  induction ws generalizing st with
  | nil =>
    intro ws' st' h
    simp only [processWorkflows, Except.ok.injEq, Prod.mk.injEq] at h
    rw [← h.1]
    exact List.Forall₂.nil
  | cons wf rest ih =>
    intro ws' st' h
    simp only [processWorkflows] at h
    split at h
    · exact absurd h (by simp)
    · rename_i wf1 st1 heq
      split at h
      · exact absurd h (by simp)
      · rename_i rest1 st2 heq2
        simp only [Except.ok.injEq, Prod.mk.injEq] at h
        rw [← h.1]
        exact List.Forall₂.cons (processWorkflow_frame heq) (ih heq2)

theorem processWorkflows_count {m : List (String × String)} {slug : String} :
    ∀ {st : PatchState} {ws ws' : List Json} {st' : PatchState},
      processWorkflows m slug st ws = Except.ok (ws', st') →
      st'.patched + st'.skipped = st.patched + st.skipped + (ws.map countWf).sum := by
  intro st ws
  induction ws generalizing st with
  | nil =>
    intro ws' st' h
    simp only [processWorkflows, Except.ok.injEq, Prod.mk.injEq] at h
    rw [← h.2]
    simp
  | cons wf rest ih =>
    intro ws' st' h
    simp only [processWorkflows] at h
    split at h
    · exact absurd h (by simp)
    · rename_i wf1 st1 heq
      split at h
      · exact absurd h (by simp)
      · rename_i rest1 st2 heq2
        simp only [Except.ok.injEq, Prod.mk.injEq] at h
        rw [← h.2]
        have h1 := processWorkflow_count heq
        have h2 := ih heq2
        simp only [List.map_cons, List.sum_cons]
        omega

theorem processWorkflows_idem {m : List (String × String)} {slug : String} :
    ∀ {st : PatchState} {ws ws' : List Json} {st' : PatchState},
      processWorkflows m slug st ws = Except.ok (ws', st') →
      processWorkflows m slug st ws' = Except.ok (ws', st') := by
  intro st ws
  induction ws generalizing st with
  | nil =>
    intro ws' st' h
    simp only [processWorkflows, Except.ok.injEq, Prod.mk.injEq] at h
    rw [← h.1, ← h.2]
    simp [processWorkflows]
  | cons wf rest ih =>
    intro ws' st' h
    simp only [processWorkflows] at h
    split at h
    · exact absurd h (by simp)
    · rename_i wf1 st1 heq
      split at h
      · exact absurd h (by simp)
      · rename_i rest1 st2 heq2
        simp only [Except.ok.injEq, Prod.mk.injEq] at h
        rw [← h.1, ← h.2]
        simp only [processWorkflows, processWorkflow_idem heq, ih heq2]

theorem runPatch_cases {m : List (String × String)} {slug : String} {d d' : Json}
    {st : PatchState} (h : runPatch m slug d = Except.ok (d', st)) :
    (∃ ws ws', d = Json.arr ws ∧ d' = Json.arr ws' ∧
      processWorkflows m slug { patched := 0, skipped := 0 } ws = Except.ok (ws', st)) ∨
    ((∀ xs, d ≠ Json.arr xs) ∧
      processWorkflow m slug { patched := 0, skipped := 0 } d = Except.ok (d', st)) := by
  cases d with
  | arr ws =>
    simp only [runPatch] at h
    split at h
    · exact absurd h (by simp)
    · rename_i ws1 st1 heq
      simp only [Except.ok.injEq, Prod.mk.injEq] at h
      exact Or.inl ⟨ws, ws1, rfl, h.1.symm, h.2 ▸ heq⟩
  | null =>
    simp only [runPatch] at h
    split at h
    · exact absurd h (by simp)
    · rename_i wf1 st1 heq
      simp only [Except.ok.injEq, Prod.mk.injEq] at h
      exact Or.inr ⟨fun xs => by simp, h.1 ▸ h.2 ▸ heq⟩
  | bool b =>
    simp only [runPatch] at h
    split at h
    · exact absurd h (by simp)
    · rename_i wf1 st1 heq
      simp only [Except.ok.injEq, Prod.mk.injEq] at h
      exact Or.inr ⟨fun xs => by simp, h.1 ▸ h.2 ▸ heq⟩
  | num i =>
    simp only [runPatch] at h
    split at h
    · exact absurd h (by simp)
    · rename_i wf1 st1 heq
      simp only [Except.ok.injEq, Prod.mk.injEq] at h
      exact Or.inr ⟨fun xs => by simp, h.1 ▸ h.2 ▸ heq⟩
  | str s =>
    simp only [runPatch] at h
    split at h
    · exact absurd h (by simp)
    · rename_i wf1 st1 heq
      simp only [Except.ok.injEq, Prod.mk.injEq] at h
      exact Or.inr ⟨fun xs => by simp, h.1 ▸ h.2 ▸ heq⟩
  | obj fs =>
    simp only [runPatch] at h
    split at h
    · exact absurd h (by simp)
    · rename_i wf1 st1 heq
      simp only [Except.ok.injEq, Prod.mk.injEq] at h
      exact Or.inr ⟨fun xs => by simp, h.1 ▸ h.2 ▸ heq⟩

theorem runPatch_frame {m : List (String × String)} {slug : String} {d d' : Json}
    {st : PatchState} (h : runPatch m slug d = Except.ok (d', st)) : DocFrame d d' := by
  rcases runPatch_cases h with ⟨ws, ws', rfl, rfl, heq⟩ | ⟨hne, heq⟩
  · exact Or.inl ⟨ws, ws', rfl, rfl, processWorkflows_frame heq⟩
  · exact Or.inr ⟨hne, processWorkflow_frame heq⟩

theorem runPatch_count {m : List (String × String)} {slug : String} {d d' : Json}
    {st : PatchState} (h : runPatch m slug d = Except.ok (d', st)) :
    st.patched + st.skipped = countCodeNodes d := by
  rcases runPatch_cases h with ⟨ws, ws', rfl, rfl, heq⟩ | ⟨hne, heq⟩
  · have := processWorkflows_count heq
    simpa [countCodeNodes] using this
  · have := processWorkflow_count heq
    cases d with
    | arr ws => exact absurd rfl (hne ws)
    | null => simpa [countCodeNodes] using this
    | bool b => simpa [countCodeNodes] using this
    | num i => simpa [countCodeNodes] using this
    | str s => simpa [countCodeNodes] using this
    | obj fs => simpa [countCodeNodes] using this

theorem runPatch_idem {m : List (String × String)} {slug : String} {d d' : Json}
    {st : PatchState} (h : runPatch m slug d = Except.ok (d', st)) :
    runPatch m slug d' = Except.ok (d', st) := by
  rcases runPatch_cases h with ⟨ws, ws', rfl, rfl, heq⟩ | ⟨hne, heq⟩
  · simp only [runPatch, processWorkflows_idem heq]
  · obtain ⟨fs, rfl, -⟩ := processWorkflow_cases heq
    obtain ⟨fs0, fs', heq0, rfl, -⟩ := processWorkflow_frame heq
    simp only [runPatch, processWorkflow_idem heq]

theorem getLast?_cons_eq {α : Type} (b : α) (xs : List α) :
    (b :: xs).getLast? = some (xs.getLast?.getD b) := by
  induction xs generalizing b with
  | nil => rfl
  | cons c rest ih => simp [List.getLast?_cons_cons, ih]

theorem getLast?_eq_some_mem {α : Type} {xs : List α} {a : α}
    (h : xs.getLast? = some a) : a ∈ xs := by
  induction xs with
  | nil => simp at h
  | cons b rest ih =>
    rw [getLast?_cons_eq] at h
    cases hr : rest.getLast? with
    | none =>
      rw [hr] at h
      simp at h
      simp [h]
    | some y =>
      rw [hr] at h
      simp at h
      subst h
      exact List.mem_cons_of_mem _ (ih hr)

theorem mapStep_get_of_not_match {m : List (String × String)} {nid base : String}
    (h : matchesFor nid base = false) : dictGet nid (mapStep m base) = dictGet nid m := by
  simp only [mapStep]
  by_cases hg : globMatchJs base = true
  · simp only [hg, if_true]
    cases he : extractNodeId base with
    | none => rfl
    | some k =>
      have hk : k ≠ nid := by
        intro hk
        rw [matchesFor, hg, he, hk] at h
        simp at h
      exact dictGet_dictSet_ne _ _ _ _ (Ne.symm hk)
  · simp only [Bool.not_eq_true] at hg
    simp [hg]

theorem mapStep_get_of_match {m : List (String × String)} {nid base : String}
    (h : matchesFor nid base = true) : dictGet nid (mapStep m base) = some base := by
  have hg : globMatchJs base = true := by
    rw [matchesFor] at h
    exact (Bool.and_eq_true_iff.1 h).1
  have he : extractNodeId base = some nid := by
    rw [matchesFor] at h
    have := (Bool.and_eq_true_iff.1 h).2
    exact beq_iff_eq.1 this
  simp only [mapStep, hg, if_true, he]
  exact dictGet_dictSet_self _ _ _

theorem foldl_mapStep_get (nid : String) :
    ∀ (listing : List String) (acc : List (String × String)),
      dictGet nid (listing.foldl mapStep acc) =
        ((listing.filter (matchesFor nid)).getLast?).or (dictGet nid acc) := by
  intro listing
  induction listing with
  | nil =>
    intro acc
    simp
  | cons b rest ih =>
    intro acc
    rw [List.foldl_cons, ih (mapStep acc b)]
    by_cases hb : matchesFor nid b = true
    · rw [List.filter_cons_of_pos hb, getLast?_cons_eq]
      cases hr : (rest.filter (matchesFor nid)).getLast? with
      | none => simp [hr, mapStep_get_of_match hb]
      | some y => simp [hr]
    · have hb' : matchesFor nid b = false := by
        simpa using hb
      rw [List.filter_cons_of_neg (by simp [hb'])]
      rw [mapStep_get_of_not_match hb']

theorem buildMapping_get (listing : List String) (nid : String) :
    dictGet nid (buildMapping listing) = (listing.filter (matchesFor nid)).getLast? := by
  rw [buildMapping, foldl_mapStep_get]
  cases (listing.filter (matchesFor nid)).getLast? with
  | none => simp [dictGet]
  | some b => simp

theorem buildMapping_get_matches {listing : List String} {nid fn : String}
    (h : dictGet nid (buildMapping listing) = some fn) :
    fn ∈ listing ∧ globMatchJs fn = true ∧ extractNodeId fn = some nid := by
  rw [buildMapping_get] at h
  have hmem := getLast?_eq_some_mem h
  have hmatch := List.of_mem_filter hmem
  have hmem' := List.mem_of_mem_filter hmem
  rw [matchesFor] at hmatch
  obtain ⟨hg, he⟩ := Bool.and_eq_true_iff.1 hmatch
  exact ⟨hmem', hg, beq_iff_eq.1 he⟩

theorem extractNodeId_some_ne {b t : String} (h : extractNodeId b = some t) :
    b ≠ "" ∧ t ≠ "" := by
  simp only [extractNodeId] at h
  split at h
  · simp at h
  · rename_i hlen
    split at h
    · rename_i rest heq
      split at h
      · simp only [Option.some.injEq] at h
        constructor
        · intro hb
          rw [hb] at hlen
          simp [String.toList] at hlen
        · have hrest : rest.length = 39 := by
            have h41 : (b.toList.drop (b.toList.length - 41)).length = 41 := by
              rw [List.length_drop]
              omega
            rw [heq] at h41
            simp at h41
            omega
          intro ht
          rw [← h] at ht
          have : (rest.take 36).length = 36 := by
            rw [List.length_take]
            omega
          rw [show (String.mk (rest.take 36) = "") ↔ rest.take 36 = [] from
            ⟨fun hh => congrArg String.data hh, fun hh => congrArg String.mk hh⟩] at ht
          rw [ht] at this
          simp at this
      · simp at h
    · simp at h

theorem mapStep_of_extract_none {acc : List (String × String)} {b : String}
    (hb : extractNodeId b = none) : mapStep acc b = acc := by
  unfold mapStep
  split
  · rw [hb]
  · rfl

theorem foldl_mapStep_of_none {l : List String} (h : ∀ f ∈ l, extractNodeId f = none) :
    ∀ acc : List (String × String), l.foldl mapStep acc = acc := by
  induction l with
  | nil => intro acc; rfl
  | cons b rest ih =>
    intro acc
    rw [List.foldl_cons, mapStep_of_extract_none (h b (by simp))]
    exact ih (fun f hf => h f (by simp [hf])) acc

theorem buildMapping_eq_nil {l : List String} (h : ∀ f ∈ l, extractNodeId f = none) :
    buildMapping l = [] := by
  rw [buildMapping]
  exact foldl_mapStep_of_none h []

/-- C1: for every node whose `type` is `n8n-nodes-base.code` and whose `id`
is a key of the file mapping, the patcher succeeds and the node's
`parameters.jsCode` becomes exactly the wrapper template instantiated with
the matched filename and the workflow slug: a try block requiring
`/data/js/workflows/<slug>/<filename>`, returning the awaited call of its
export applied to the bindings `$input,$json,$items,$node,$env,helpers`,
and a catch block prepending `[extjs:<slug>/<filename>]` to the error
message before rethrowing; the node counts as patched. -/
theorem C1_wrapper_exact (listing : List String) (slug s fn : String)
    (fs : List (String × Json)) (st : PatchState)
    (hty : dictGet "type" fs = some (Json.str "n8n-nodes-base.code"))
    (hid : dictGet "id" fs = some (Json.str s))
    (hmap : dictGet s (buildMapping listing) = some fn)
    (hpar : dictGet "parameters" fs = none ∨
      ∃ ps, dictGet "parameters" fs = some (Json.obj ps)) :
    ∃ fs' st',
      processNode (buildMapping listing) slug st (Json.obj fs) =
        Except.ok (Json.obj fs', st') ∧
      paramLookup fs' "jsCode" = some (Json.str
        ("try\x7bconst fn=require('/data/js/workflows/" ++ slug ++ "/" ++ fn ++
          "');return await fn(\x7b$input,$json,$items,$node,$env,helpers\x7d);\x7d" ++
          "catch(e)\x7be.message=`[extjs:" ++ slug ++ "/" ++ fn ++
          "] $\x7be.message\x7d`;throw e;\x7d")) ∧
      st' = bumpPatched st := by
  obtain ⟨hmem, hglob, hex⟩ := buildMapping_get_matches hmap
  obtain ⟨hfn, hs⟩ := extractNodeId_some_ne hex
  have hty' : dictGet "type" fs = some (Json.str codeNodeType) := hty
  rw [processNode_compute (buildMapping listing) slug st fs s fn hty' hid hs hmap hfn]
  rcases hpar with hp | ⟨ps, hp⟩
  · refine ⟨dictSet fs "parameters" (Json.obj [("jsCode", Json.str (wrapper slug fn))]),
      bumpPatched st, ?_, ?_, rfl⟩
    · simp only [patchNode, hp]
    · have h1 := dictGet_dictSet_self fs "parameters"
        (Json.obj [("jsCode", Json.str (wrapper slug fn))])
      simp only [paramLookup, h1, dictGet]
      simp [wrapper]
  · refine ⟨dictSet fs "parameters"
      (Json.obj (dictSet ps "jsCode" (Json.str (wrapper slug fn)))),
      bumpPatched st, ?_, ?_, rfl⟩
    · simp only [patchNode, hp]
    · have h1 := dictGet_dictSet_self fs "parameters"
        (Json.obj (dictSet ps "jsCode" (Json.str (wrapper slug fn))))
      simp only [paramLookup, h1]
      rw [dictGet_dictSet_self]
      simp [wrapper]

/-- Witness for C1 at a concrete node, listing, and slug. -/
theorem C1_witness :
    ∃ fs' st',
      processNode (buildMapping [sampleFile]) "slug" { patched := 0, skipped := 0 }
        (Json.obj [("id", Json.str uuidZeros), ("type", Json.str "n8n-nodes-base.code"),
          ("parameters", Json.obj [("jsCode", Json.str "old"), ("mode", Json.str "x")])]) =
        Except.ok (Json.obj fs', st') ∧
      paramLookup fs' "jsCode" = some (Json.str
        ("try\x7bconst fn=require('/data/js/workflows/" ++ "slug" ++ "/" ++ sampleFile ++
          "');return await fn(\x7b$input,$json,$items,$node,$env,helpers\x7d);\x7d" ++
          "catch(e)\x7be.message=`[extjs:" ++ "slug" ++ "/" ++ sampleFile ++
          "] $\x7be.message\x7d`;throw e;\x7d")) ∧
      st' = bumpPatched { patched := 0, skipped := 0 } :=
  C1_wrapper_exact [sampleFile] "slug" uuidZeros sampleFile
    [("id", Json.str uuidZeros), ("type", Json.str "n8n-nodes-base.code"),
      ("parameters", Json.obj [("jsCode", Json.str "old"), ("mode", Json.str "x")])]
    { patched := 0, skipped := 0 } rfl rfl rfl
    (Or.inr ⟨[("jsCode", Json.str "old"), ("mode", Json.str "x")], rfl⟩)

/-- C2: whenever a run of the patcher succeeds, the output document is
structurally identical to the input except for the `parameters.jsCode`
field of patched code-type nodes: the object-vs-array root shape is
preserved, no node is added, removed or reordered, every non-code-type
node is unchanged, and every other field of an eligible node (and every
other entry of its `parameters`) is unchanged. -/
theorem C2_structural_fidelity (m : List (String × String)) (slug : String)
    (d d' : Json) (st : PatchState) (h : runPatch m slug d = Except.ok (d', st)) :
    DocFrame d d' :=
  runPatch_frame h

/-- Witness for C2 on a concrete one-workflow document. -/
theorem C2_witness :
    runPatch (buildMapping [sampleFile]) "slug" sampleDoc =
      Except.ok (sampleDocOut, { patched := 1, skipped := 0 }) ∧
    DocFrame sampleDoc sampleDocOut :=
  ⟨rfl, C2_structural_fidelity (buildMapping [sampleFile]) "slug" sampleDoc sampleDocOut
    { patched := 1, skipped := 0 } rfl⟩

/-- C3: whenever a run of the patcher succeeds, `total_patched` plus
`total_skipped` equals the number of nodes whose `type` equals
`n8n-nodes-base.code` across all workflows of the document; nodes of any
other type contribute to neither counter. -/
theorem C3_counters_partition (m : List (String × String)) (slug : String)
    (d d' : Json) (st : PatchState) (h : runPatch m slug d = Except.ok (d', st)) :
    st.patched + st.skipped = countCodeNodes d :=
  runPatch_count h

/-- Witness for C3 on a concrete one-workflow document. -/
theorem C3_witness :
    ({ patched := 1, skipped := 0 } : PatchState).patched +
      ({ patched := 1, skipped := 0 } : PatchState).skipped = countCodeNodes sampleDoc :=
  C3_counters_partition (buildMapping [sampleFile]) "slug" sampleDoc sampleDocOut
    { patched := 1, skipped := 0 } rfl

/-- C4: a code-type node whose `id` is missing (absent key or JSON null),
empty, or not a key of the mapping is counted as skipped and returned
entirely unchanged, and is not counted as patched. -/
theorem C4_unmapped_id_skipped (m : List (String × String)) (slug : String)
    (st : PatchState) (fs : List (String × Json))
    (hty : dictGet "type" fs = some (Json.str "n8n-nodes-base.code"))
    (hid : dictGet "id" fs = none ∨ dictGet "id" fs = some Json.null ∨
      dictGet "id" fs = some (Json.str "") ∨
      ∃ s, dictGet "id" fs = some (Json.str s) ∧ dictGet s m = none) :
    processNode m slug st (Json.obj fs) = Except.ok (Json.obj fs, skipOne st) := by
  have hty' : isCodeType (dictGet "type" fs) = true := by
    rw [hty]
    simp [isCodeType, codeNodeType]
  rcases hid with h0 | h0 | h0 | ⟨s, h0, hm⟩
  · simp [processNode, hty', h0]
  · simp [processNode, hty', h0, pyTruthy]
  · simp [processNode, hty', h0, pyTruthy]
  · by_cases hs : s = ""
    · subst hs
      simp [processNode, hty', h0, pyTruthy]
    · have htr : pyTruthy (Json.str s) = true := by simp [pyTruthy, hs]
      simp [processNode, hty', h0, htr, hm]

/-- Witness for C4 at a code node whose id is absent from the mapping. -/
theorem C4_witness :
    processNode [] "slug" { patched := 0, skipped := 0 }
      (Json.obj [("type", Json.str "n8n-nodes-base.code"), ("id", Json.str uuidZeros)]) =
      Except.ok (Json.obj [("type", Json.str "n8n-nodes-base.code"),
        ("id", Json.str uuidZeros)], skipOne { patched := 0, skipped := 0 }) :=
  C4_unmapped_id_skipped [] "slug" { patched := 0, skipped := 0 }
    [("type", Json.str "n8n-nodes-base.code"), ("id", Json.str uuidZeros)] rfl
    (Or.inr (Or.inr (Or.inr ⟨uuidZeros, rfl, rfl⟩)))

/-- C5 counterexample: a hidden file whose basename does end with two
underscores, a 36-character hex-and-hyphen token and `.js` (its regex
capture succeeds), yet the built mapping has no entry for it, because the
`*.js` glob never matches names starting with a dot. -/
theorem C5_counterexample :
    extractNodeId ".hidden__000000000000000000000000000000000000.js" = some uuidZeros ∧
    buildMapping [".hidden__000000000000000000000000000000000000.js"] = [] :=
  ⟨rfl, rfl⟩

/-- C5 (amended): the mapping binds an id to exactly the last listing
entry that both survives the `*.js` glob (which excludes dot-files) and
whose regex capture is that id; entries failing either filter contribute
nothing. -/
theorem C5_mapping_characterization (listing : List String) (nid : String) :
    dictGet nid (buildMapping listing) =
      (listing.filter fun base =>
        globMatchJs base && (extractNodeId base == some nid)).getLast? := by
  rw [buildMapping_get]
  rfl

/-- C6: the patching pass is idempotent — re-running the pipeline on its
own output with the same mapping and slug reproduces the document (and the
counters) exactly, since the wrapper overwrite is unconditional. -/
theorem C6_idempotent (m : List (String × String)) (slug : String) (d d' : Json)
    (st : PatchState) (h : runPatch m slug d = Except.ok (d', st)) :
    runPatch m slug d' = Except.ok (d', st) :=
  runPatch_idem h

/-- Witness for C6 on a concrete document. -/
theorem C6_witness :
    runPatch (buildMapping [sampleFile]) "slug" sampleDocOut =
      Except.ok (sampleDocOut, { patched := 1, skipped := 0 }) :=
  C6_idempotent (buildMapping [sampleFile]) "slug" sampleDoc sampleDocOut
    { patched := 1, skipped := 0 } rfl

/-- C7: with an argument vector not of length four the program dies with
the usage message and exit status 1, regardless of the filesystem; with
four arguments, a missing workflow-JSON path dies with its message, and an
existing path with a missing JS directory dies with its message — all
before any mapping, parsing, or writing is attempted (the conclusion holds
for every world, and the mapping/parse/write stages appear only in the
`finished` outcome). -/
theorem C7_cli_guards (argv : List String) (w : World) :
    (argv.length ≠ 4 →
      runMain argv w = Outcome.died usageMsg ∧ (runMain argv w).exitCode = 1) ∧
    (∀ prog a b c, argv = [prog, a, b, c] →
      (w.pathExists a = false →
        runMain argv w = Outcome.died ("Missing workflow json: " ++ a) ∧
        (runMain argv w).exitCode = 1) ∧
      (w.pathExists a = true → w.isDir b = false →
        runMain argv w = Outcome.died ("Missing js dir: " ++ b) ∧
        (runMain argv w).exitCode = 1)) := by
  constructor
  · intro hlen
    have hdied : runMain argv w = Outcome.died usageMsg := by
      match argv with
      | [] => rfl
      | [a] => rfl
      | [a, b] => rfl
      | [a, b, c] => rfl
      | [a, b, c, d] => simp at hlen
      | a :: b :: c :: d :: e :: rest => rfl
    exact ⟨hdied, by rw [hdied]; rfl⟩
  · intro prog a b c heq
    subst heq
    constructor
    · intro hpe
      have hdied : runMain [prog, a, b, c] w =
          Outcome.died ("Missing workflow json: " ++ a) := by
        simp [runMain, hpe]
      exact ⟨hdied, by rw [hdied]; rfl⟩
    · intro hpe hdir
      have hdied : runMain [prog, a, b, c] w =
          Outcome.died ("Missing js dir: " ++ b) := by
        simp [runMain, hpe, hdir]
      exact ⟨hdied, by rw [hdied]; rfl⟩

/-- Witness for C7: wrong arity, missing file, and missing directory. -/
theorem C7_witness :
    runMain ["tool"] emptyWorld = Outcome.died usageMsg ∧
    runMain ["tool", "wf.json", "jsdir", "slug"] emptyWorld =
      Outcome.died ("Missing workflow json: " ++ "wf.json") ∧
    runMain ["tool", "wf.json", "jsdir", "slug"] fileWorld =
      Outcome.died ("Missing js dir: " ++ "jsdir") :=
  ⟨((C7_cli_guards ["tool"] emptyWorld).1 (by decide)).1,
   (((C7_cli_guards ["tool", "wf.json", "jsdir", "slug"] emptyWorld).2
      "tool" "wf.json" "jsdir" "slug" rfl).1 rfl).1,
   (((C7_cli_guards ["tool", "wf.json", "jsdir", "slug"] fileWorld).2
      "tool" "wf.json" "jsdir" "slug" rfl).2 rfl rfl).1⟩

/-- C8: when no listing entry of the JS directory matches the UUID-suffix
regex, the process dies with the no-mapped-files message and exit status
1, and never reaches the `finished` outcome — the only outcome that
writes an output file. -/
theorem C8_no_mapped_files_dies (prog a b c : String) (w : World)
    (hpe : w.pathExists a = true) (hdir : w.isDir b = true)
    (hnone : ∀ f ∈ w.jsListing b, extractNodeId f = none) :
    runMain [prog, a, b, c] w =
      Outcome.died ("No node-id mapped js files found in " ++ b) ∧
    (runMain [prog, a, b, c] w).exitCode = 1 ∧
    ∀ p doc np ns, runMain [prog, a, b, c] w ≠ Outcome.finished p doc np ns := by
  have hmap : buildMapping (w.jsListing b) = [] := buildMapping_eq_nil hnone
  have hdied : runMain [prog, a, b, c] w =
      Outcome.died ("No node-id mapped js files found in " ++ b) := by
    simp [runMain, hpe, hdir, hmap]
  refine ⟨hdied, by rw [hdied]; rfl, fun p doc np ns => ?_⟩
  rw [hdied]
  intro hcon
  cases hcon

/-- Witness for C8 with a directory listing holding no matching file. -/
theorem C8_witness :
    runMain ["tool", "wf.json", "jsdir", "slug"] emptyDirWorld =
      Outcome.died ("No node-id mapped js files found in " ++ "jsdir") :=
  (C8_no_mapped_files_dies "tool" "wf.json" "jsdir" "slug" emptyDirWorld rfl rfl
    (by
      intro f hf
      simp [emptyDirWorld] at hf
      rw [hf]
      rfl)).1

/-- C9 counterexample: with a malformed workflow JSON the run ends in the
uncaught `json.JSONDecodeError` outcome — fatal with exit status 1, but
its stderr output is the interpreter's multi-line traceback, not the
single-line diagnostic of the `die` helper that the claim describes. -/
theorem C9_counterexample :
    runMain ["tool", "wf.json", "jsdir", "slug"] noJsonWorld =
      Outcome.raisedJSONDecodeError ∧
    Outcome.oneLineDie (runMain ["tool", "wf.json", "jsdir", "slug"] noJsonWorld) = false ∧
    (runMain ["tool", "wf.json", "jsdir", "slug"] noJsonWorld).exitCode = 1 :=
  ⟨rfl, rfl, rfl⟩

/-- C9 (amended): when the workflow JSON file is malformed the process
fails fatally with a non-zero exit status, but through an uncaught parse
exception whose stderr output is a multi-line traceback, not the one-line
`die` diagnostic used by the other errors of the taxonomy. -/
theorem C9_parse_error_fatal (prog a b c : String) (w : World)
    (hpe : w.pathExists a = true) (hdir : w.isDir b = true)
    (hmap : (buildMapping (w.jsListing b)).isEmpty = false)
    (hjson : w.fileJson a = none) :
    runMain [prog, a, b, c] w = Outcome.raisedJSONDecodeError ∧
    (runMain [prog, a, b, c] w).exitCode = 1 ∧
    Outcome.oneLineDie (runMain [prog, a, b, c] w) = false := by
  have hrun : runMain [prog, a, b, c] w = Outcome.raisedJSONDecodeError := by
    simp [runMain, hpe, hdir, hmap, hjson]
  exact ⟨hrun, by rw [hrun]; rfl, by rw [hrun]; rfl⟩

/-- Witness for the amended C9 at a concrete world. -/
theorem C9_witness :
    runMain ["tool", "wf.json", "jsdir", "slug"] noJsonWorld =
      Outcome.raisedJSONDecodeError ∧
    (runMain ["tool", "wf.json", "jsdir", "slug"] noJsonWorld).exitCode = 1 ∧
    Outcome.oneLineDie (runMain ["tool", "wf.json", "jsdir", "slug"] noJsonWorld) = false :=
  C9_parse_error_fatal "tool" "wf.json" "jsdir" "slug" noJsonWorld rfl rfl rfl rfl

/-- C10: a workflow object with no `nodes` key is processed as an empty
node sequence — no error, both counters unchanged, and the workflow is
passed through to the output untouched. -/
theorem C10_missing_nodes_noop (m : List (String × String)) (slug : String)
    (st : PatchState) (fs : List (String × Json))
    (h : dictGet "nodes" fs = none) :
    processWorkflow m slug st (Json.obj fs) = Except.ok (Json.obj fs, st) := by
  simp [processWorkflow, h]

/-- Witness for C10 on a one-field workflow without `nodes`. -/
theorem C10_witness :
    processWorkflow [] "slug" { patched := 0, skipped := 0 }
      (Json.obj [("name", Json.str "wf")]) =
      Except.ok (Json.obj [("name", Json.str "wf")], { patched := 0, skipped := 0 }) :=
  C10_missing_nodes_noop [] "slug" { patched := 0, skipped := 0 }
    [("name", Json.str "wf")] rfl

end ExtJsPatch
